import Mathlib

/-!
Verification of the IR-construction core of a protobuf-to-Dart client
generator (`generator/client.go`).  The Go functions are shallowly embedded
as executable Lean definitions: strings are Lean `String`s manipulated via
their character lists, the mutable `*Model` graph of the generator becomes
explicit state passing over a `List Model` (models are identified by name;
the schema guarantees message names are unique per compilation unit), and
the unbounded recursion of `enableMarshal` / `enableUnmarshal` is given an
explicit fuel parameter so that divergence is observable as fuel exhaustion
at every finite budget.
-/

/-! ### Go `strings` / `path` standard-library helpers

All helpers are written with structural recursion (a fuel argument bounded
by the input length where Go skips several characters at once) so that the
kernel can evaluate them.  They model the Go semantics for the arguments
actually used by the generator: every `old` / `sep` pattern occurring in the
source is a non-empty ASCII literal, and all identifiers fed to the
case-conversion helpers are ASCII, so the ASCII-only `Char.toUpper` /
`Char.toLower` agree with Go's Unicode versions on every reachable input. -/

/-- Removes `pre` from the front of `l`, or `none` when `pre` is not a
prefix of `l`. -/
def stripPre : List Char → List Char → Option (List Char)
  | [], l => some l
  | _ :: _, [] => none
  | p :: ps, c :: cs => if c == p then stripPre ps cs else none

/-- Go `strings.HasPrefix`. -/
def goHasPre (s pre : String) : Bool := (stripPre pre.data s.data).isSome

/-- Go `strings.TrimPrefix`: drops the prefix when present, otherwise
returns the string unchanged. -/
def goTrimPre (s pre : String) : String :=
  match stripPre pre.data s.data with
  | some rest => String.mk rest
  | none => s

/-- Go `strings.HasSuffix`. -/
def goHasSuffix (s suf : String) : Bool :=
  (stripPre suf.data.reverse s.data.reverse).isSome

/-- Character-level worker for Go `strings.Replace(s, old, new, -1)`.
The fuel is instantiated with the length of the subject string, which is
enough because `old` is non-empty at every call site in the generator, so
every step consumes at least one character. -/
def repChars (old new : List Char) : Nat → List Char → List Char
  | _, [] => []
  | 0, l => l
  | fuel + 1, c :: cs =>
    match stripPre old (c :: cs) with
    | some rest => new ++ repChars old new fuel rest
    | none => c :: repChars old new fuel cs

/-- Go `strings.Replace(s, old, new, -1)` (replace every occurrence). -/
def goReplaceAll (s old new : String) : String :=
  String.mk (repChars old.data new.data s.data.length s.data)

/-- Character-level worker for Go `strings.Split` with a non-empty
separator; `acc` accumulates the current segment in reverse. -/
def splitChars (sep : List Char) : Nat → List Char → List Char → List (List Char)
  | _, acc, [] => [acc.reverse]
  | 0, acc, l => [acc.reverse ++ l]
  | fuel + 1, acc, c :: cs =>
    match stripPre sep (c :: cs) with
    | some rest => acc.reverse :: splitChars sep fuel [] rest
    | none => splitChars sep fuel (c :: acc) cs

/-- Go `strings.Split` (the generator only splits on the non-empty
separators `"_"`, `"/"` and `"."`). -/
def goSplit (s sep : String) : List String :=
  (splitChars sep.data s.data.length [] s.data).map String.mk

/-- Go `strings.Join`. -/
def goJoin (elems : List String) (sep : String) : String :=
  match elems with
  | [] => ""
  | e :: rest => rest.foldl (fun acc x => acc ++ sep ++ x) e

/-- Go `strings.ToUpper`, for the ASCII strings the generator feeds it. -/
def goToUpper (s : String) : String := String.mk (s.data.map Char.toUpper)

/-- Go `strings.ToLower`, for the ASCII strings the generator feeds it. -/
def goToLower (s : String) : String := String.mk (s.data.map Char.toLower)

/-- Go string slicing `s[0:n]` (ASCII inputs, where bytes = characters). -/
def strTake (s : String) (n : Nat) : String := String.mk (s.data.take n)

/-- Go string slicing `s[n:]` (ASCII inputs, where bytes = characters). -/
def strDrop (s : String) (n : Nat) : String := String.mk (s.data.drop n)

/-- Go `path.Clean`: collapse duplicate slashes, drop `.` elements,
cancel `..` against a preceding element, drop `..` at a rooted front;
empty cleans to `.`. -/
def pathClean (p : String) : String :=
  if p == "" then "."
  else
    let rooted := goHasPre p "/"
    let comps := (goSplit p "/").filter (fun c => !(c == "") && !(c == "."))
    let stack := comps.foldl (fun acc c =>
      if c == ".." then
        match acc with
        | [] => if rooted then [] else [".."]
        | top :: rest => if top == ".." then c :: acc else rest
      else c :: acc) ([] : List String)
    let body := goJoin stack.reverse "/"
    if rooted then "/" ++ body
    else if body == "" then "." else body

/-- Everything up to and including the final slash of `p` (the `dir` part
of Go `path.Split`). -/
def pathDirPre (p : String) : String :=
  String.mk ((p.data.reverse.dropWhile (fun c => !(c == '/'))).reverse)

/-- Go `path.Dir`. -/
def pathDir (p : String) : String := pathClean (pathDirPre p)

/-- Everything after the final slash of `p` (Go `path.Base` for the
slash-terminated-free names the generator passes). -/
def pathBase (p : String) : String :=
  String.mk (p.data.reverse.takeWhile (fun c => !(c == '/'))).reverse

/-- Go `path.Join` restricted to two elements, as used by the generator. -/
def pathJoin (a b : String) : String :=
  match [a, b].filter (fun e => !(e == "")) with
  | [] => ""
  | elems => pathClean (goJoin elems "/")

/-! ### Schema descriptor inputs

The decoded `FileDescriptorProto` object graph supplied by the protobuf
toolchain, restricted to the attributes the generator reads.  Proto getters
(`GetName`, `GetTypeName`, ...) on these always-present scalar attributes
are plain field reads. -/

/-- `descriptor.FieldDescriptorProto_Type` (the wire kinds). -/
inductive FieldType where
  | TYPE_DOUBLE | TYPE_FLOAT
  | TYPE_INT64 | TYPE_UINT64 | TYPE_INT32
  | TYPE_FIXED64 | TYPE_FIXED32
  | TYPE_BOOL | TYPE_STRING | TYPE_GROUP | TYPE_MESSAGE | TYPE_BYTES
  | TYPE_UINT32 | TYPE_ENUM
  | TYPE_SFIXED32 | TYPE_SFIXED64 | TYPE_SINT32 | TYPE_SINT64
  deriving DecidableEq, Repr

/-- `descriptor.FieldDescriptorProto_Label`. -/
inductive FieldLabel where
  | LABEL_OPTIONAL | LABEL_REQUIRED | LABEL_REPEATED
  deriving DecidableEq, Repr

/-- `descriptor.FieldDescriptorProto`, restricted to the attributes read by
the generator (`Name`, `Number`, `Label`, `Type`, `TypeName`).  `Label` is
optional in the descriptor, mirrored by `Option`; field numbers are the
positive protobuf tags, modelled as `Nat`. -/
structure FieldDescriptorProto where
  name : String
  number : Nat
  label : Option FieldLabel
  type : FieldType
  typeName : String
  deriving DecidableEq, Repr

/-- `descriptor.DescriptorProto` (a message type), restricted to the
attributes read by the generator: name, fields, nested types, and the
`map_entry` message option consulted by `GetMapFields`. -/
inductive DescriptorProto where
  | mk (name : String) (field : List FieldDescriptorProto)
       (nestedType : List DescriptorProto) (mapEntry : Bool)

def DescriptorProto.name : DescriptorProto → String
  | .mk n _ _ _ => n

def DescriptorProto.field : DescriptorProto → List FieldDescriptorProto
  | .mk _ f _ _ => f

def DescriptorProto.nestedType : DescriptorProto → List DescriptorProto
  | .mk _ _ n _ => n

def DescriptorProto.mapEntry : DescriptorProto → Bool
  | .mk _ _ _ e => e

/-- `descriptor.MethodDescriptorProto`: method name and fully qualified
input/output type names. -/
structure MethodDescriptorProto where
  name : String
  inputType : String
  outputType : String
  deriving DecidableEq, Repr

/-- `descriptor.ServiceDescriptorProto`. -/
structure ServiceDescriptorProto where
  name : String
  method : List MethodDescriptorProto
  deriving DecidableEq, Repr

/-- `descriptor.FileDescriptorProto`, restricted to the attributes read by
the generator. -/
structure FileDescriptorProto where
  name : String
  package : String
  messageType : List DescriptorProto
  service : List ServiceDescriptorProto
  dependency : List String

/-- `GetMapFields` from the gogo protobuf descriptor library (external
collaborator): when the message carries the synthetic `map_entry` option it
returns the field descriptors with protobuf tags 1 (key) and 2 (value),
otherwise both results are nil. -/
def getMapFields (msg : DescriptorProto) :
    Option FieldDescriptorProto × Option FieldDescriptorProto :=
  if !msg.mapEntry then (none, none)
  else msg.field.foldl (fun kv f =>
    let kv := if f.number == 1 then (some f, kv.2) else kv
    if f.number == 2 then (kv.1, some f) else kv) (none, none)

/-! ### Type Mapper and name helpers (`protoToDartType`, `isRepeated`,
`removePkg`, `camelCase`) -/

/-- `isRepeated` (client.go:468-470): the label is present and equals
`LABEL_REPEATED`. -/
def isRepeated (field : FieldDescriptorProto) : Bool :=
  field.label == some FieldLabel.LABEL_REPEATED

/-- `removePkg` (client.go:472-475): the last `.`-separated component. -/
def removePkg (s : String) : String :=
  let p := goSplit s "."
  (p.getLast?).getD ""

/-- `protoToDartType` (client.go:420-466): maps a field descriptor to the
`(dartType, internalType, jsonType)` triple.  The switch covers DOUBLE,
{FIXED32, FIXED64, INT32, INT64}, STRING, BOOL and MESSAGE (with the
well-known Timestamp special case); every other kind keeps the initial
`String`/`string` defaults.  `internalType` snapshots the unwrapped type
before the repeated wrapping. -/
def protoToDartType (f : FieldDescriptorProto) : String × String × String :=
  let dj : String × String :=
    match f.type with
    | .TYPE_DOUBLE => ("double", "number")
    | .TYPE_FIXED32 | .TYPE_FIXED64 | .TYPE_INT32 | .TYPE_INT64 => ("int", "number")
    | .TYPE_STRING => ("String", "string")
    | .TYPE_BOOL => ("bool", "boolean")
    | .TYPE_MESSAGE =>
      if f.typeName == ".google.protobuf.Timestamp" then ("DateTime", "string")
      else (removePkg f.typeName, removePkg f.typeName ++ "JSON")
    | _ => ("String", "string")
  let dartType := dj.1
  let jsonType := dj.2
  let internalType := dartType
  if isRepeated f then ("List<" ++ dartType ++ ">", internalType, jsonType ++ "[]")
  else (dartType, internalType, jsonType)

/-- The per-segment transform applied by `camelCase` to every segment after
the first: `strings.ToUpper(p[0:1]) + strings.ToLower(p[1:])`.  Go panics
when the segment is empty (`p[0:1]` is out of range); the embedding
totalises that case to the empty string, and the theorems below only
evaluate it on names without empty segments. -/
def capSeg (p : String) : String := goToUpper (strTake p 1) ++ goToLower (strDrop p 1)

/-- `camelCase` (client.go:477-489): split on `_`, keep segment 0
unchanged, capitalise the remaining segments, and join with no separator. -/
def camelCase (s : String) : String :=
  let parts := goSplit s "_"
  let parts2 := parts.enum.map (fun ip => if ip.1 == 0 then ip.2 else capSeg ip.2)
  goJoin parts2 ""

/-! ### Field IR (`ModelField`) and the Field Resolver (`newField`)

`ModelField` is recursive through the optional map key/value sub-fields, so
it is an inductive with explicit projections (Lean structures cannot be
recursive).  The Go struct field `Type` is rendered `Typ` because `Type` is
a Lean keyword. -/

inductive ModelField where
  | mk (Name Typ InternalType JSONName JSONType : String)
       (IsMessage IsRepeated IsMap : Bool)
       (MapKeyField MapValueField : Option ModelField)

def ModelField.Name : ModelField → String
  | .mk n _ _ _ _ _ _ _ _ _ => n

def ModelField.Typ : ModelField → String
  | .mk _ t _ _ _ _ _ _ _ _ => t

def ModelField.InternalType : ModelField → String
  | .mk _ _ it _ _ _ _ _ _ _ => it

def ModelField.JSONName : ModelField → String
  | .mk _ _ _ jn _ _ _ _ _ _ => jn

def ModelField.JSONType : ModelField → String
  | .mk _ _ _ _ jt _ _ _ _ _ => jt

def ModelField.IsMessage : ModelField → Bool
  | .mk _ _ _ _ _ im _ _ _ _ => im

def ModelField.IsRepeated : ModelField → Bool
  | .mk _ _ _ _ _ _ ir _ _ _ => ir

def ModelField.IsMap : ModelField → Bool
  | .mk _ _ _ _ _ _ _ im _ _ => im

def ModelField.MapKeyField : ModelField → Option ModelField
  | .mk _ _ _ _ _ _ _ _ k _ => k

def ModelField.MapValueField : ModelField → Option ModelField
  | .mk _ _ _ _ _ _ _ _ _ v => v

/-- The map branch of `newField` (client.go:403-410): mark the field as a
map, attach the resolved key/value sub-fields, and override the type with
the compound `Map<K,V>` string. -/
def ModelField.setMap : ModelField → ModelField → ModelField → ModelField
  | .mk n _ it jn jt im ir _ _ _, k, v =>
    .mk n ("Map<" ++ k.Typ ++ "," ++ v.Typ ++ ">") it jn jt im ir true (some k) (some v)

/-- The two assignments after the nested-type scan (client.go:412-413):
`field.IsMessage = ...; field.IsRepeated = ...`. -/
def ModelField.setMessageRepeated : ModelField → Bool → Bool → ModelField
  | .mk n t it jn jt _ _ im k v, isMsg, isRep =>
    .mk n t it jn jt isMsg isRep im k v

mutual

/-- `newField` (client.go:382-416).  The Go version also receives the file
descriptor and the generator, which it only threads through to recursive
calls and never reads; they are omitted here. -/
def newField (f : FieldDescriptorProto) : DescriptorProto → ModelField
  | DescriptorProto.mk _mName _mFields mNested _mMapEntry =>
    let t := protoToDartType f
    let jsonName := f.name
    let nm := camelCase jsonName
    let base := ModelField.mk nm t.1 t.2.1 jsonName t.2.2 false false false none none
    let scanned := scanNested f mNested base
    scanned.setMessageRepeated (f.type == FieldType.TYPE_MESSAGE) (isRepeated f)

/-- The `for _, nested := range m.GetNestedType()` loop of `newField`
(client.go:398-411): a nested type whose name is a suffix of the field's
declared type name and whose `GetMapFields` yields both a key and a value
turns the field into a map. -/
def scanNested (f : FieldDescriptorProto) : List DescriptorProto → ModelField → ModelField
  | [], fld => fld
  | nested :: rest, fld =>
    let fld2 :=
      if !goHasSuffix f.typeName nested.name then fld
      else
        match getMapFields nested with
        | (some keyField, some valueField) =>
          let mk1 := newField keyField nested
          let mv := newField valueField nested
          fld.setMap mk1 mv
        | _ => fld
    scanNested f rest fld2

end

/-! ### Model graph state and the marshal-closure engine

Go mutates `Model` values through shared `*Model` pointers reachable both
from `ctx.Models` and from the name-keyed `ctx.modelLookup` map.  The
embedding replaces pointer mutation by explicit state passing over the
`ctx.Models` list: a model is identified by its name (message names are
unique per compilation unit) and flag updates rewrite the list.
`modelLookup` keeps the last registration per name, exactly like the Go
map written by `AddModel`.

`enableMarshal` / `enableUnmarshal` recurse without any termination
guard, so their embedding carries an explicit fuel parameter: one unit of
fuel is consumed per (non-nil) call, `none` means the recursion exceeded
the given budget, and a result `none` for every finite fuel is exactly a
diverging (stack-overflowing) run of the Go original.  `log.Fatalf` aborts
are the `fatal` outcome, and a nil `*Model` dereference is `nilPanic`. -/

structure Model where
  Name : String
  Primitive : Bool
  Fields : List ModelField
  CanMarshal : Bool
  CanUnmarshal : Bool

structure ServiceMethod where
  Name : String
  Path : String
  InputArg : String
  InputType : String
  OutputType : String
  deriving DecidableEq, Repr

structure Service where
  Name : String
  Package : String
  Methods : List ServiceMethod
  deriving DecidableEq, Repr

structure Import where
  Path : String
  deriving DecidableEq, Repr

/-- `ctx.modelLookup[name]`: the map holds the last model registered under
each name by `AddModel` (client.go:188-191). -/
def modelLookup (ms : List Model) (name : String) : Option Model :=
  ms.foldl (fun acc m => if m.Name == name then some m else acc) none

/-- The pointer write `m.CanMarshal = true` (client.go:262), expressed as a
by-name update of the model list. -/
def setCanMarshal (ms : List Model) (name : String) : List Model :=
  ms.map (fun m => if m.Name == name then { m with CanMarshal := true } else m)

/-- The pointer write `m.CanUnmarshal = true` (client.go:278). -/
def setCanUnmarshal (ms : List Model) (name : String) : List Model :=
  ms.map (fun m => if m.Name == name then { m with CanUnmarshal := true } else m)

/-- Observable outcome of a closure computation: a finished model list, a
`log.Fatalf` abort naming the missing type and the referencing field, or a
nil-pointer dereference panic. -/
inductive ClosureResult where
  | ok (models : List Model)
  | fatal (typeName fieldName : String)
  | nilPanic

/-- Sequencing of closure steps: a `log.Fatalf` abort or a panic stops the
whole computation (the Go process dies), while a surviving state feeds the
next step; exhausted fuel propagates as `none`. -/
def bindCR (r : Option ClosureResult) (k : List Model → Option ClosureResult) :
    Option ClosureResult :=
  match r with
  | some (ClosureResult.ok ms) => k ms
  | other => other

/-- `enableMarshal` (client.go:261-275) with fuel.  The `Option Model`
argument is the possibly-nil `*Model` parameter: a nil argument panics on
the immediate `m.CanMarshal = true` write.  Note the faithful absence of
any already-marked check and of any `List<...>` unwrapping: every
message-typed, non-`DateTime` field is looked up by its literal type string
and recursed into unconditionally. -/
def enableMarshalPtr : Nat → List Model → Option Model → Option ClosureResult
  | _, _, none => some ClosureResult.nilPanic
  | 0, _, some _ => none
  | fuel + 1, ms, some m =>
    m.Fields.foldl (fun acc f =>
      bindCR acc (fun ms1 =>
        if !f.IsMessage || f.Typ == "DateTime" then some (ClosureResult.ok ms1)
        else
          match modelLookup ms1 f.Typ with
          | none => some (ClosureResult.fatal f.Typ f.Name)
          | some mm => enableMarshalPtr fuel ms1 (some mm)))
      (some (ClosureResult.ok (setCanMarshal ms m.Name)))

/-- `enableUnmarshal` (client.go:277-291) with fuel; structurally identical
to `enableMarshalPtr` on the decode flag. -/
def enableUnmarshalPtr : Nat → List Model → Option Model → Option ClosureResult
  | _, _, none => some ClosureResult.nilPanic
  | 0, _, some _ => none
  | fuel + 1, ms, some m =>
    m.Fields.foldl (fun acc f =>
      bindCR acc (fun ms1 =>
        if !f.IsMessage || f.Typ == "DateTime" then some (ClosureResult.ok ms1)
        else
          match modelLookup ms1 f.Typ with
          | none => some (ClosureResult.fatal f.Typ f.Name)
          | some mm => enableUnmarshalPtr fuel ms1 (some mm)))
      (some (ClosureResult.ok (setCanUnmarshal ms m.Name)))

/-- The inner `for _, f := range m.Fields` loop of `ApplyMarshalFlags`
(client.go:235-257) for the model at position `mIdx`.  The outer loop
variable `m` is a pointer, so its flags are re-read from the current state
at every field; its type string is unwrapped from the `List<...>` form
when the field is repeated; the marshal direction indexes the lookup map
without an `ok` check (a missing type is a nil dereference inside
`enableMarshal`), while the unmarshal direction checks `ok` and calls
`log.Fatalf` itself. -/
def amfFields (fuel : Nat) (mIdx : Nat) : List Model → List ModelField → Option ClosureResult
  | ms, [] => some (ClosureResult.ok ms)
  | ms, f :: rest =>
    if !f.IsMessage || f.Typ == "DateTime" then amfFields fuel mIdx ms rest
    else
      let baseType :=
        if f.IsRepeated then goReplaceAll (goReplaceAll f.Typ "List<" "") ">" ""
        else f.Typ
      let canMarshalNow := ((ms.get? mIdx).map Model.CanMarshal).getD false
      let step1 :=
        if canMarshalNow then enableMarshalPtr fuel ms (modelLookup ms baseType)
        else some (ClosureResult.ok ms)
      bindCR step1 (fun ms1 =>
        let canUnmarshalNow := ((ms1.get? mIdx).map Model.CanUnmarshal).getD false
        let step2 :=
          if canUnmarshalNow then
            match modelLookup ms1 baseType with
            | none => some (ClosureResult.fatal baseType f.Name)
            | some mm => enableUnmarshalPtr fuel ms1 (some mm)
          else some (ClosureResult.ok ms1)
        bindCR step2 (fun ms2 => amfFields fuel mIdx ms2 rest))

/-- The outer `for _, m := range ctx.Models` loop of `ApplyMarshalFlags`:
`count` models remain, starting at position `mIdx`.  The iterated slice is
fixed while the pointed-to models mutate, so the field list of the current
model is read from the evolving state at its position. -/
def amfModels (fuel : Nat) : Nat → Nat → List Model → Option ClosureResult
  | _, 0, ms => some (ClosureResult.ok ms)
  | mIdx, count + 1, ms =>
    match (ms.get? mIdx).map Model.Fields with
    | none => some (ClosureResult.ok ms)
    | some fs =>
      bindCR (amfFields fuel mIdx ms fs) (fun ms1 => amfModels fuel (mIdx + 1) count ms1)

/-- `ApplyMarshalFlags` (client.go:233-259) with fuel for the recursive
closure calls. -/
def applyMarshalFlags (fuel : Nat) (ms : List Model) : Option ClosureResult :=
  amfModels fuel 0 ms.length ms

/-! ### Import Resolver (`ApplyImports`) and Context Aggregator
(`CreateClientAPI`) -/

/-- Modelled from the spec: the helper `dartFilename` is defined in a part
of this repository outside the provided source (only its call site at
client.go:217 is visible).  Per spec sections 4.6 and 6 it is the
dependency's own companion binding-file name: the schema file's base name
with its extension stripped plus the fixed binding suffix, matching the
`.pb.dart` suffix the visible code uses for the file's own binding import
(client.go:201). -/
def dartFilename (dep : String) : String :=
  goReplaceAll (pathBase dep) ".proto" "" ++ ".pb.dart"

/-- The per-dependency relative-path computation of `ApplyImports`
(client.go:203-226): trim each source-directory component that is a string
prefix of the remaining dependency directory, count the untrimmed source
components as `distanceFromRoot`, join with the dependency's binding file
name, and prepend one `..` per remaining component.  The well-known
timestamp schema is skipped.  `os.PathSeparator` is `/` (the toolchain's
path convention used everywhere else in the function). -/
def dependencyImport (fileName : String) (dep : String) : Option Import :=
  if dep == "google/protobuf/timestamp.proto" then none
  else
    let importPath := pathDir dep
    let sourceDir := pathDir fileName
    let sourceComponents := goSplit sourceDir "/"
    let trimmed := sourceComponents.foldl (fun st pathComponent =>
      if goHasPre st.1 pathComponent then (goTrimPre st.1 pathComponent, st.2 - 1)
      else st) (importPath, sourceComponents.length)
    let fullPath := pathJoin trimmed.1 (dartFilename dep)
    let fullPath := (List.range trimmed.2).foldl (fun fp _ => pathJoin ".." fp) fullPath
    some { Path := fullPath }

/-- `ApplyImports` (client.go:193-228): the transport/async imports when at
least one service exists, the encoding import, the file's own companion
binding entry, then one entry per (non-timestamp) dependency. -/
def applyImports (services : List Service) (d : FileDescriptorProto) : List Import :=
  let deps : List Import :=
    if services.length > 0 then [{ Path := "dart:async" }, { Path := "package:http/http.dart" }]
    else []
  let deps := deps ++ [{ Path := "dart:convert" },
    { Path := goReplaceAll d.name ".proto" "" ++ ".pb.dart" }]
  deps ++ d.dependency.filterMap (dependencyImport d.name)

/-- One pass of the seeding double loop of `CreateClientAPI`
(client.go:337-349) for a single method: flip `CanMarshal` when the model
name equals the method's input type, then `CanUnmarshal` for the output
type. -/
def rpcFlagStep (m : Model) (sm : ServiceMethod) : Model :=
  let m1 := if m.Name == sm.InputType then { m with CanMarshal := true } else m
  if m1.Name == sm.OutputType then { m1 with CanUnmarshal := true } else m1

/-- The full seeding double loop of `CreateClientAPI` for one model:
iterate all services and all their methods in order. -/
def applyRpcFlags (services : List Service) (m : Model) : Model :=
  services.foldl (fun m1 s => s.Methods.foldl rpcFlagStep m1) m

/-- The `Model` built for one message descriptor (client.go:299-308): name
and resolved fields; the flags and the `Primitive` marker keep their Go
zero values. -/
def modelOfMessage (m : DescriptorProto) : Model :=
  { Name := m.name, Primitive := false,
    Fields := m.field.map (fun f => newField f m),
    CanMarshal := false, CanUnmarshal := false }

/-- The `ServiceMethod` built for one method descriptor
(client.go:317-329): lower-case the first character for the target method
name and the argument name, keep the wire path verbatim, strip packages
from the input/output types. -/
def serviceMethodOf (m : MethodDescriptorProto) : ServiceMethod :=
  let methodPath := m.name
  let methodName := goToLower (strTake methodPath 1) ++ strDrop methodPath 1
  let inTy := removePkg m.inputType
  let arg := goToLower (strTake inTy 1) ++ strDrop inTy 1
  { Name := methodName, Path := methodPath, InputArg := arg,
    InputType := inTy, OutputType := removePkg m.outputType }

/-- The synthetic primitive `Date` model appended by `CreateClientAPI`
(client.go:351-354); all unset attributes keep their Go zero values. -/
def dateModel : Model :=
  { Name := "Date", Primitive := true, Fields := [],
    CanMarshal := false, CanUnmarshal := false }

/-- The IR context assembled by `CreateClientAPI` (client.go:293-357),
up to the point where it is handed to the template: models in declaration
order, services, the RPC-surface seeding of the marshal flags, the
synthetic primitive `Date` model appended after the seeding loop, and the
imports.  The call to `ApplyMarshalFlags` is commented out in the source
(client.go:357) and is therefore absent here. -/
def createClientAPIContext (d : FileDescriptorProto) :
    List Model × List Service × List Import :=
  let models := d.messageType.map modelOfMessage
  let services := d.service.map (fun s =>
    { Name := s.name, Package := d.package, Methods := s.method.map serviceMethodOf })
  let models := models.map (applyRpcFlags services)
  let models := models ++ [dateModel]
  (models, services, applyImports services d)

/-- The models component of the assembled context. -/
def ctxModels (d : FileDescriptorProto) : List Model := (createClientAPIContext d).1

/-- The services component of the assembled context. -/
def ctxServices (d : FileDescriptorProto) : List Service := (createClientAPIContext d).2.1

/-! ### Spec-side reference definitions and concrete schema inputs

Concrete descriptors, resolved models, and model-graph states at which
the claims are evaluated, together with the spec-side reference
definition used by the camel-case refinement. -/

/-- Field descriptor `b : B` of message `A`. -/
def fdToB : FieldDescriptorProto :=
  { name := "b", number := 1, label := some .LABEL_OPTIONAL,
    type := .TYPE_MESSAGE, typeName := ".p.B" }

/-- Field descriptor `a : A` of message `B`. -/
def fdToA : FieldDescriptorProto :=
  { name := "a", number := 1, label := some .LABEL_OPTIONAL,
    type := .TYPE_MESSAGE, typeName := ".p.A" }

def msgA1 : DescriptorProto := .mk "A" [fdToB] [] false

def msgB1 : DescriptorProto := .mk "B" [fdToA] [] false

/-- Cycle seed: model `A`, an RPC input (`CanMarshal = true`), whose only
field references `B`. -/
def modelA : Model := { modelOfMessage msgA1 with CanMarshal := true }

/-- Model `B`, whose only field references `A` back. -/
def modelB : Model := modelOfMessage msgB1

def modelBT : Model := { modelOfMessage msgB1 with CanMarshal := true }

/-- The cyclic A→B→A reference graph with A seeded from the RPC surface. -/
def stC1 : List Model := [modelA, modelB]

/-- The same graph once both models have been marked encode-capable: the
state `enableMarshal` keeps revisiting forever. -/
def stAB : List Model := [modelA, modelBT]

/-- A message field whose type name resolves to a model absent from the
lookup table. -/
def fdGhost : FieldDescriptorProto :=
  { name := "ghost", number := 1, label := some .LABEL_OPTIONAL,
    type := .TYPE_MESSAGE, typeName := ".p.Ghost" }

def msgM : DescriptorProto := .mk "M" [fdGhost] [] false

/-- Only model `M`, encode-seeded; its field references the missing type
`Ghost`. -/
def stC3m : List Model := [{ modelOfMessage msgM with CanMarshal := true }]

/-- Only model `M`, decode-seeded; same missing reference. -/
def stC3u : List Model := [{ modelOfMessage msgM with CanUnmarshal := true }]

def fdChild : FieldDescriptorProto :=
  { name := "child", number := 1, label := some .LABEL_OPTIONAL,
    type := .TYPE_MESSAGE, typeName := ".p.B" }

/-- A repeated message field referencing `C`; its resolved IR type is the
collection-wrapped `List<C>`. -/
def fdKids : FieldDescriptorProto :=
  { name := "kids", number := 1, label := some .LABEL_REPEATED,
    type := .TYPE_MESSAGE, typeName := ".p.C" }

def msgA4 : DescriptorProto := .mk "A" [fdChild] [] false

def msgB4 : DescriptorProto := .mk "B" [fdKids] [] false

def msgC4 : DescriptorProto := .mk "C" [] [] false

/-- Three models A→B→C where B's reference to C is repeated; A is
encode-seeded. -/
def stC4 : List Model :=
  [{ modelOfMessage msgA4 with CanMarshal := true },
   modelOfMessage msgB4, modelOfMessage msgC4]

/-- A repeated field of the well-known timestamp type. -/
def fdTsRepeated : FieldDescriptorProto :=
  { name := "ts", number := 1, label := some .LABEL_REPEATED,
    type := .TYPE_MESSAGE, typeName := ".google.protobuf.Timestamp" }

/-- A singular field of the well-known timestamp type. -/
def fdTsSingle : FieldDescriptorProto :=
  { name := "ts", number := 1, label := some .LABEL_OPTIONAL,
    type := .TYPE_MESSAGE, typeName := ".google.protobuf.Timestamp" }

def msgEventR : DescriptorProto := .mk "Event" [fdTsRepeated] [] false

def msgEventS : DescriptorProto := .mk "Event" [fdTsSingle] [] false

/-- A decode-seeded model with one repeated timestamp field. -/
def stC5r : List Model := [{ modelOfMessage msgEventR with CanUnmarshal := true }]

/-- A decode-seeded model with one singular timestamp field. -/
def stC5s : List Model := [{ modelOfMessage msgEventS with CanUnmarshal := true }]

/-- The method descriptor `Go(.p.Date) → .p.Date`. -/
def mthGoDate : MethodDescriptorProto :=
  { name := "Go", inputType := ".p.Date", outputType := ".p.Date" }

def svcS0 : ServiceDescriptorProto := { name := "S", method := [mthGoDate] }

/-- A schema with no messages and one method whose input and output types
are both named `.p.Date`: only the synthetic `Date` model exists. -/
def fdD0 : FileDescriptorProto :=
  { name := "f.proto", package := "p", messageType := [],
    service := [svcS0], dependency := [] }

/-- The resolved `ServiceMethod` the pipeline builds for `mthGoDate`. -/
def smGoDate : ServiceMethod :=
  { Name := "go", Path := "Go", InputArg := "date",
    InputType := "Date", OutputType := "Date" }

/-- The resolved `Service` the pipeline builds for `svcS0`. -/
def svcGoDate : Service := { Name := "S", Package := "p", Methods := [smGoDate] }

/-- The method descriptor `Go(.p.In) → .p.Out`. -/
def mthGoInOut : MethodDescriptorProto :=
  { name := "Go", inputType := ".p.In", outputType := ".p.Out" }

def svcS1 : ServiceDescriptorProto := { name := "S", method := [mthGoInOut] }

/-- A schema with one (field-free) message `In` and one method
`Go(.p.In) → .p.Out`. -/
def fdD1 : FileDescriptorProto :=
  { name := "f.proto", package := "p",
    messageType := [DescriptorProto.mk "In" [] [] false],
    service := [svcS1], dependency := [] }

/-- The model built for message `In` after the seeding loop. -/
def modelIn : Model :=
  { Name := "In", Primitive := false, Fields := [],
    CanMarshal := true, CanUnmarshal := false }

/-- A `uint32` field descriptor. -/
def fdUint32 : FieldDescriptorProto :=
  { name := "u", number := 1, label := some .LABEL_OPTIONAL,
    type := .TYPE_UINT32, typeName := "" }

/-- An `int64` field descriptor (repeated). -/
def fdInt64Rep : FieldDescriptorProto :=
  { name := "xs", number := 2, label := some .LABEL_REPEATED,
    type := .TYPE_INT64, typeName := "" }

/-- The map-field shape: both sub-fields present and the compound
`Map<K,V>` type string built from their target types. -/
def mapShape (fld : ModelField) : Prop :=
  ∃ kf vf, fld.MapKeyField = some kf ∧ fld.MapValueField = some vf
    ∧ fld.Typ = "Map<" ++ kf.Typ ++ "," ++ vf.Typ ++ ">"

/-- The synthetic map-entry nested message `FooEntry` with key tag 1
(string) and value tag 2 (int32). -/
def mapEntryMsg : DescriptorProto :=
  .mk "FooEntry"
    [ { name := "key", number := 1, label := some .LABEL_OPTIONAL,
        type := .TYPE_STRING, typeName := "" },
      { name := "value", number := 2, label := some .LABEL_OPTIONAL,
        type := .TYPE_INT32, typeName := "" } ]
    [] true

/-- The message owning the map field, carrying the synthetic entry type. -/
def ownerMsg : DescriptorProto := .mk "M" [] [mapEntryMsg] false

/-- The map field descriptor as the schema compiler emits it: message
typed, referencing the entry type, and labelled repeated. -/
def mapFd : FieldDescriptorProto :=
  { name := "foo_map", number := 3, label := some .LABEL_REPEATED,
    type := .TYPE_MESSAGE, typeName := ".pkg.M.FooEntry" }

/-- Spec-side reference definition for the amended C8: split the wire name
on `_`, keep the first segment unchanged, upper-case the initial letter and
lower-case the remainder of every later segment, and concatenate. -/
def camelCaseSpec (s : String) : String :=
  let parts := goSplit s "_"
  goJoin (parts.take 1 ++ (parts.drop 1).map capSeg) ""

/-- A schema file at `a/b/file.proto` depending on `a/c/dep.proto`. -/
def fdD9 : FileDescriptorProto :=
  { name := "a/b/file.proto", package := "p", messageType := [],
    service := [], dependency := ["a/c/dep.proto"] }

/-- A service with no methods, enough to gate the transport imports. -/
def svcW : Service := { Name := "W", Package := "p", Methods := [] }

/-! ### C1 -/

/-- Both closure entry points on the fully-marked cyclic state diverge:
no finite recursion budget completes, in either direction of the cycle. -/
theorem enableMarshal_cycle_aux : ∀ n, enableMarshalPtr n stAB (some modelA) = none
    ∧ enableMarshalPtr n stAB (some modelBT) = none := by
  intro n
  induction n with
  | zero => exact ⟨rfl, rfl⟩
  | succ k ih =>
    refine ⟨?_, ?_⟩
    · show enableMarshalPtr k stAB (some modelBT) = none
      exact ih.2
    · show enableMarshalPtr k stAB (some modelA) = none
      exact ih.1

/-- The first closure call issued by `ApplyMarshalFlags` on the cyclic
state already diverges. -/
theorem enableMarshal_cycle_start : ∀ n, enableMarshalPtr n stC1 (some modelB) = none := by
  intro n
  cases n with
  | zero => rfl
  | succ k =>
    show enableMarshalPtr k stAB (some modelA) = none
    exact (enableMarshal_cycle_aux k).1

/-- C1: the claim states that `ApplyMarshalFlags` (via `enableMarshal` /
`enableUnmarshal`) tracks a visited set, skips already-marked nodes, and
terminates on the cyclic graph A→B→A with both models ending
`canEncode = true`.  The code has no such guard: `enableMarshal`
unconditionally recurses into every message-typed field, so on the seeded
cycle the computation exhausts every finite fuel budget — the Go original
recurses A→B→A→… without bound and never returns. -/
theorem applyMarshalFlags_cycle_diverges :
    ∀ fuel, applyMarshalFlags fuel stC1 = none := by
  intro fuel
  have h := enableMarshal_cycle_start fuel
  show bindCR (bindCR (enableMarshalPtr fuel stC1 (some modelB)) _) _ = none
  rw [h]; rfl

/-! ### C3 -/

/-- C3: the claim states that a missing referenced type aborts fatally with
a diagnostic naming the missing type and the referencing field, in both
closure directions, never silently dereferencing.  The decode direction
does exactly that (second conjunct: `log.Fatalf` naming `Ghost` and
`ghost`).  But the top-level encode direction (client.go:247) indexes the
lookup map without an `ok` check and passes the resulting nil `*Model`
straight to `enableMarshal`, which dereferences it (`m.CanMarshal = true`,
client.go:262): a nil-pointer panic with no diagnostic, at every fuel
budget. -/
theorem applyMarshalFlags_missing_type_outcomes :
    (∀ fuel, applyMarshalFlags fuel stC3m = some ClosureResult.nilPanic)
    ∧ (∀ fuel, applyMarshalFlags fuel stC3u
        = some (ClosureResult.fatal "Ghost" "ghost")) := by
  constructor
  · intro fuel
    cases fuel with
    | zero => rfl
    | succ k => rfl
  · intro fuel
    rfl

/-! ### C4 -/

/-- C4: the claim states that collection-wrapped types are unwrapped to
their element type before lookup at every depth of the closure.  Only the
top-level pass (client.go:241-245) unwraps; the recursive passes
(client.go:269, 285) look up the literal `List<...>` string.  On A→B with
`B.kids : List<C>`, the recursion looks up `"List<C>"`, misses, and aborts
with `log.Fatalf` naming `List<C>` — even though model `C` exists in the
lookup table (second conjunct). -/
theorem enableMarshal_no_unwrap_at_depth :
    (∀ fuel, applyMarshalFlags (fuel + 1) stC4
      = some (ClosureResult.fatal "List<C>" "kids"))
    ∧ modelLookup stC4 "C" = some (modelOfMessage msgC4) := by
  exact ⟨fun fuel => rfl, rfl⟩

/-! ### C5 -/

/-- C5: the claim states every timestamp field — including repeated ones —
maps to the `DateTime` target type with a string wire type and is skipped
by the closure, never triggering a missing-type failure.  The mapper part
holds (first two conjuncts).  A singular timestamp field is indeed skipped
(third conjunct).  But a repeated one resolves to type `List<DateTime>`,
which fails the `f.Type == "DateTime"` skip check (client.go:237), is
unwrapped to `DateTime`, misses the lookup table (no model is named
`DateTime`), and kills the compilation with `log.Fatalf` naming `DateTime`
(fourth conjunct). -/
theorem timestamp_closure_outcomes :
    protoToDartType fdTsRepeated = ("List<DateTime>", "DateTime", "string[]")
    ∧ protoToDartType fdTsSingle = ("DateTime", "DateTime", "string")
    ∧ (∀ fuel, applyMarshalFlags fuel stC5s = some (ClosureResult.ok stC5s))
    ∧ (∀ fuel, applyMarshalFlags fuel stC5r
        = some (ClosureResult.fatal "DateTime" "ts")) := by
  exact ⟨rfl, rfl, fun fuel => rfl, fun fuel => rfl⟩

/-! ### C2 -/

theorem rpcFlagStep_Name (m : Model) (sm : ServiceMethod) :
    (rpcFlagStep m sm).Name = m.Name := by
  cases h1 : (m.Name == sm.InputType) <;> cases h2 : (m.Name == sm.OutputType) <;>
    simp [rpcFlagStep, h1, h2]

theorem rpcFlagStep_Primitive (m : Model) (sm : ServiceMethod) :
    (rpcFlagStep m sm).Primitive = m.Primitive := by
  cases h1 : (m.Name == sm.InputType) <;> cases h2 : (m.Name == sm.OutputType) <;>
    simp [rpcFlagStep, h1, h2]

theorem rpcFlagStep_CanMarshal (m : Model) (sm : ServiceMethod) :
    (rpcFlagStep m sm).CanMarshal = (m.CanMarshal || m.Name == sm.InputType) := by
  cases h1 : (m.Name == sm.InputType) <;> cases h2 : (m.Name == sm.OutputType) <;>
    simp [rpcFlagStep, h1, h2]

theorem rpcFlagStep_CanUnmarshal (m : Model) (sm : ServiceMethod) :
    (rpcFlagStep m sm).CanUnmarshal = (m.CanUnmarshal || m.Name == sm.OutputType) := by
  cases h1 : (m.Name == sm.InputType) <;> cases h2 : (m.Name == sm.OutputType) <;>
    simp [rpcFlagStep, h1, h2]

theorem foldl_rpcFlagStep_Name (mths : List ServiceMethod) (m : Model) :
    (mths.foldl rpcFlagStep m).Name = m.Name := by
  induction mths generalizing m with
  | nil => rfl
  | cons sm rest ih => simp [List.foldl_cons, ih, rpcFlagStep_Name]

theorem foldl_rpcFlagStep_Primitive (mths : List ServiceMethod) (m : Model) :
    (mths.foldl rpcFlagStep m).Primitive = m.Primitive := by
  induction mths generalizing m with
  | nil => rfl
  | cons sm rest ih => simp [List.foldl_cons, ih, rpcFlagStep_Primitive]

theorem foldl_rpcFlagStep_CanMarshal (mths : List ServiceMethod) (m : Model) :
    (mths.foldl rpcFlagStep m).CanMarshal
      = (m.CanMarshal || mths.any (fun sm => m.Name == sm.InputType)) := by
  induction mths generalizing m with
  | nil => simp
  | cons sm rest ih =>
    simp [List.foldl_cons, ih, rpcFlagStep_CanMarshal, rpcFlagStep_Name, Bool.or_assoc]

theorem foldl_rpcFlagStep_CanUnmarshal (mths : List ServiceMethod) (m : Model) :
    (mths.foldl rpcFlagStep m).CanUnmarshal
      = (m.CanUnmarshal || mths.any (fun sm => m.Name == sm.OutputType)) := by
  induction mths generalizing m with
  | nil => simp
  | cons sm rest ih =>
    simp [List.foldl_cons, ih, rpcFlagStep_CanUnmarshal, rpcFlagStep_Name, Bool.or_assoc]

theorem applyRpcFlags_cons (s : Service) (rest : List Service) (m : Model) :
    applyRpcFlags (s :: rest) m = applyRpcFlags rest (s.Methods.foldl rpcFlagStep m) := rfl

theorem applyRpcFlags_Name (svcs : List Service) (m : Model) :
    (applyRpcFlags svcs m).Name = m.Name := by
  induction svcs generalizing m with
  | nil => rfl
  | cons s rest ih => rw [applyRpcFlags_cons, ih, foldl_rpcFlagStep_Name]

theorem applyRpcFlags_Primitive (svcs : List Service) (m : Model) :
    (applyRpcFlags svcs m).Primitive = m.Primitive := by
  induction svcs generalizing m with
  | nil => rfl
  | cons s rest ih => rw [applyRpcFlags_cons, ih, foldl_rpcFlagStep_Primitive]

theorem applyRpcFlags_CanMarshal (svcs : List Service) (m : Model) :
    (applyRpcFlags svcs m).CanMarshal
      = (m.CanMarshal
          || svcs.any (fun s => s.Methods.any (fun sm => m.Name == sm.InputType))) := by
  induction svcs generalizing m with
  | nil => simp [applyRpcFlags]
  | cons s rest ih =>
    rw [applyRpcFlags_cons, ih, foldl_rpcFlagStep_CanMarshal]
    simp [foldl_rpcFlagStep_Name, Bool.or_assoc]

theorem applyRpcFlags_CanUnmarshal (svcs : List Service) (m : Model) :
    (applyRpcFlags svcs m).CanUnmarshal
      = (m.CanUnmarshal
          || svcs.any (fun s => s.Methods.any (fun sm => m.Name == sm.OutputType))) := by
  induction svcs generalizing m with
  | nil => simp [applyRpcFlags]
  | cons s rest ih =>
    rw [applyRpcFlags_cons, ih, foldl_rpcFlagStep_CanUnmarshal]
    simp [foldl_rpcFlagStep_Name, Bool.or_assoc]

/-- C2 counterexample: in the context built for `fdD0`, the synthetic
`Date` model (appended after the seeding loop, client.go:351-354) has
`CanMarshal = false` although its name equals the input type of a service
method — so "CanMarshal=true exactly when the name equals some method's
input type" fails for it. -/
theorem createClientAPI_date_model_break :
    ∃ m ∈ ctxModels fdD0,
      m.CanMarshal = false ∧ m.CanUnmarshal = false
      ∧ ∃ s ∈ ctxServices fdD0, ∃ sm ∈ s.Methods,
          m.Name = sm.InputType ∧ m.Name = sm.OutputType := by
  refine ⟨dateModel, ?_, rfl, rfl, svcGoDate, ?_, smGoDate, ?_, rfl, rfl⟩
  · exact List.Mem.head _
  · exact List.Mem.head _
  · exact List.Mem.head _

/-- C2 (amended): the stated equivalence holds for every model built from a
message descriptor (the non-primitive models); the synthetic primitive
`Date` model — added after the seeding loop — always keeps both flags
false, even when a method input or output type is named `Date`.  Since the
`ApplyMarshalFlags` call is commented out (client.go:357), no other
assignment touches the flags, so models referenced only through message
fields keep both flags false. -/
theorem createClientAPI_flags_iff_rpc_surface (d : FileDescriptorProto) :
    (∀ m ∈ ctxModels d, m.Primitive = false →
      ((m.CanMarshal = true
          ↔ ∃ s ∈ ctxServices d, ∃ sm ∈ s.Methods, m.Name = sm.InputType)
        ∧ (m.CanUnmarshal = true
          ↔ ∃ s ∈ ctxServices d, ∃ sm ∈ s.Methods, m.Name = sm.OutputType)))
    ∧ (∀ m ∈ ctxModels d, m.Primitive = true →
        m.CanMarshal = false ∧ m.CanUnmarshal = false) := by
  constructor
  · intro m hm _hprim
    have hm2 : m ∈ (d.messageType.map modelOfMessage).map
        (applyRpcFlags (ctxServices d)) ++ [dateModel] := hm
    rcases List.mem_append.1 hm2 with hmem | hdate
    · rcases List.mem_map.1 hmem with ⟨m0, _hm0, rfl⟩
      constructor
      · rw [applyRpcFlags_CanMarshal]
        rcases List.mem_map.1 _hm0 with ⟨msg, _, rfl⟩
        simp [modelOfMessage, applyRpcFlags_Name, List.any_eq_true, beq_iff_eq]
      · rw [applyRpcFlags_CanUnmarshal]
        rcases List.mem_map.1 _hm0 with ⟨msg, _, rfl⟩
        simp [modelOfMessage, applyRpcFlags_Name, List.any_eq_true, beq_iff_eq]
    · rcases List.mem_singleton.1 hdate with rfl
      exact absurd _hprim (by simp [dateModel])
  · intro m hm hprim
    have hm2 : m ∈ (d.messageType.map modelOfMessage).map
        (applyRpcFlags (ctxServices d)) ++ [dateModel] := hm
    rcases List.mem_append.1 hm2 with hmem | hdate
    · rcases List.mem_map.1 hmem with ⟨m0, hm0, rfl⟩
      rcases List.mem_map.1 hm0 with ⟨msg, _, rfl⟩
      rw [applyRpcFlags_Primitive] at hprim
      simp [modelOfMessage] at hprim
    · rcases List.mem_singleton.1 hdate with rfl
      exact ⟨rfl, rfl⟩

/-- Witness for C2's theorem at the concrete schema `fdD1`. -/
theorem createClientAPI_flags_iff_rpc_surface_witness :
    (modelIn ∈ ctxModels fdD1) ∧ modelIn.Primitive = false
    ∧ ((modelIn.CanMarshal = true
          ↔ ∃ s ∈ ctxServices fdD1, ∃ sm ∈ s.Methods, modelIn.Name = sm.InputType)
        ∧ (modelIn.CanUnmarshal = true
          ↔ ∃ s ∈ ctxServices fdD1, ∃ sm ∈ s.Methods, modelIn.Name = sm.OutputType)) :=
  ⟨List.Mem.head _, rfl,
    (createClientAPI_flags_iff_rpc_surface fdD1).1 modelIn (List.Mem.head _) rfl⟩

/-! ### C6 -/

/-- C6 counterexample: the claim says every integer width/encoding variant
maps to `int`/`number`, but a `uint32` field falls through the switch
(whose integer cases are only FIXED32, FIXED64, INT32, INT64,
client.go:430-435) to the `String`/`string` defaults. -/
theorem protoToDartType_uint32_falls_back :
    protoToDartType fdUint32 = ("String", "String", "string")
    ∧ protoToDartType fdUint32 ≠ ("int", "int", "number") := by
  exact ⟨rfl, by decide⟩

/-- C6 (amended): only the four switch-listed integer kinds (`int32`,
`int64`, `fixed32`, `fixed64`) map to the `int` target type with the
numeric wire type; the remaining integer variants (`uint32`, `uint64`,
`sint32`, `sint64`, `sfixed32`, `sfixed64`) hit the silent text-type
fallback and map to `String`/`string` (collection-wrapped when
repeated). -/
theorem protoToDartType_integer_kinds (f : FieldDescriptorProto) :
    ((f.type = .TYPE_INT32 ∨ f.type = .TYPE_INT64
        ∨ f.type = .TYPE_FIXED32 ∨ f.type = .TYPE_FIXED64) →
      protoToDartType f
        = (if isRepeated f then ("List<int>", "int", "number[]")
           else ("int", "int", "number")))
    ∧ ((f.type = .TYPE_UINT32 ∨ f.type = .TYPE_UINT64
        ∨ f.type = .TYPE_SINT32 ∨ f.type = .TYPE_SINT64
        ∨ f.type = .TYPE_SFIXED32 ∨ f.type = .TYPE_SFIXED64) →
      protoToDartType f
        = (if isRepeated f then ("List<String>", "String", "string[]")
           else ("String", "String", "string"))) := by
  constructor
  · rintro (h | h | h | h) <;> simp [protoToDartType, h]
  · rintro (h | h | h | h | h | h) <;> simp [protoToDartType, h]

/-- Witness for C6's theorem at concrete `int64` (repeated) and `uint32`
descriptors. -/
theorem protoToDartType_integer_kinds_witness :
    (fdInt64Rep.type = .TYPE_INT32 ∨ fdInt64Rep.type = .TYPE_INT64
      ∨ fdInt64Rep.type = .TYPE_FIXED32 ∨ fdInt64Rep.type = .TYPE_FIXED64)
    ∧ protoToDartType fdInt64Rep
        = (if isRepeated fdInt64Rep then ("List<int>", "int", "number[]")
           else ("int", "int", "number"))
    ∧ (fdUint32.type = .TYPE_UINT32 ∨ fdUint32.type = .TYPE_UINT64
      ∨ fdUint32.type = .TYPE_SINT32 ∨ fdUint32.type = .TYPE_SINT64
      ∨ fdUint32.type = .TYPE_SFIXED32 ∨ fdUint32.type = .TYPE_SFIXED64)
    ∧ protoToDartType fdUint32
        = (if isRepeated fdUint32 then ("List<String>", "String", "string[]")
           else ("String", "String", "string")) :=
  ⟨Or.inr (Or.inl rfl),
    (protoToDartType_integer_kinds fdInt64Rep).1 (Or.inr (Or.inl rfl)),
    Or.inl rfl,
    (protoToDartType_integer_kinds fdUint32).2 (Or.inl rfl)⟩

/-! ### C7 -/

theorem setMessageRepeated_IsMap (x : ModelField) (a b : Bool) :
    (x.setMessageRepeated a b).IsMap = x.IsMap := by cases x; rfl

theorem setMessageRepeated_IsRepeated (x : ModelField) (a b : Bool) :
    (x.setMessageRepeated a b).IsRepeated = b := by cases x; rfl

theorem setMessageRepeated_mapShape (x : ModelField) (a b : Bool) :
    mapShape x → mapShape (x.setMessageRepeated a b) := by
  cases x; exact fun h => h

theorem setMap_mapShape (x k v : ModelField) : mapShape (x.setMap k v) := by
  cases x; exact ⟨k, v, rfl, rfl, rfl⟩

theorem setMap_IsMap (x k v : ModelField) : (x.setMap k v).IsMap = true := by
  cases x; rfl

theorem scanNested_preserves_mapShape (f : FieldDescriptorProto)
    (l : List DescriptorProto) :
    ∀ fld : ModelField, (fld.IsMap = true → mapShape fld) →
      ((scanNested f l fld).IsMap = true → mapShape (scanNested f l fld)) := by
  induction l with
  | nil => exact fun fld h => h
  | cons n rest ih =>
    intro fld h
    show (scanNested f rest _).IsMap = true → mapShape (scanNested f rest _)
    apply ih
    split
    · exact h
    · split
      · intro _; apply setMap_mapShape
      · exact h

/-- C7 (amended): a Field with `isMap = true` has both key and value
sub-fields present and its target type is the compound `Map<K,V>` string
built from their target types; however, `isRepeated` is not left unset —
client.go:413 assigns it from the descriptor's label unconditionally, after
the map scan, so a map field (which the schema compiler emits with the
repeated label) carries `isRepeated = true` as well. -/
theorem newField_map_invariant (f : FieldDescriptorProto) (m : DescriptorProto) :
    ((newField f m).IsMap = true → mapShape (newField f m))
    ∧ (newField f m).IsRepeated = isRepeated f := by
  cases m with
  | mk nm fs nts me =>
    constructor
    · show (ModelField.setMessageRepeated _ _ _).IsMap = true → _
      rw [setMessageRepeated_IsMap]
      intro hmap
      apply setMessageRepeated_mapShape
      exact scanNested_preserves_mapShape f nts _
        (fun hfalse => by simp [ModelField.IsMap] at hfalse) hmap
    · show (ModelField.setMessageRepeated _ _ _).IsRepeated = _
      rw [setMessageRepeated_IsRepeated]

/-- C7 counterexample: on a real map field (whose wire label is repeated)
the resolver leaves `IsRepeated` set: `IsMap` and `IsRepeated` are both
true, refuting "a map field's `isRepeated` is not set". -/
theorem newField_map_sets_isRepeated :
    (newField mapFd ownerMsg).IsMap = true
    ∧ (newField mapFd ownerMsg).IsRepeated = true
    ∧ (newField mapFd ownerMsg).Typ = "Map<String,int>" := by
  exact ⟨by decide, by decide, by decide⟩

/-- Witness for C7's theorem at the concrete map field. -/
theorem newField_map_invariant_witness :
    (newField mapFd ownerMsg).IsMap = true
    ∧ mapShape (newField mapFd ownerMsg)
    ∧ (newField mapFd ownerMsg).IsRepeated = isRepeated mapFd :=
  ⟨by decide, (newField_map_invariant mapFd ownerMsg).1 (by decide),
    (newField_map_invariant mapFd ownerMsg).2⟩

/-! ### C8 -/

theorem enumFrom_map_capSeg (l : List String) :
    ∀ k, (l.enumFrom (k + 1)).map
        (fun ip => if ip.1 == 0 then ip.2 else capSeg ip.2) = l.map capSeg := by
  induction l with
  | nil => intro k; rfl
  | cons x xs ih =>
    intro k
    show (if (k + 1) == 0 then x else capSeg x) :: _ = capSeg x :: xs.map capSeg
    rw [if_neg (by simp)]
    exact congrArg _ (ih (k + 1))

theorem enum_map_capSeg (l : List String) :
    l.enum.map (fun ip => if ip.1 == 0 then ip.2 else capSeg ip.2)
      = l.take 1 ++ (l.drop 1).map capSeg := by
  cases l with
  | nil => rfl
  | cons first rest =>
    show (if (0 : Nat) == 0 then first else capSeg first) :: _
      = first :: rest.map capSeg
    rw [if_pos (by simp)]
    exact congrArg _ (enumFrom_map_capSeg rest 0)

/-- C8 counterexample: the claim predicts a lower-cased first segment and
only an upper-cased initial letter for later segments.  The code keeps the
first segment verbatim (`parts[i] = p` for `i == 0`, client.go:482) and
also lower-cases the tail of each later segment (client.go:484):
`My_field` camel-cases to `MyField`, not `myField`, and `id_ABC` to
`idAbc`, not `idABC`. -/
theorem camelCase_first_segment_kept :
    camelCase "My_field" = "MyField" ∧ camelCase "My_field" ≠ "myField"
    ∧ camelCase "id_ABC" = "idAbc" ∧ camelCase "id_ABC" ≠ "idABC" := by
  exact ⟨by decide, by decide, by decide, by decide⟩

/-- C8 (amended): the resolver derives the target name by splitting the
wire name on `_`, keeping the first segment unchanged, upper-casing the
initial letter and lower-casing the remainder of every later segment, and
concatenating.  The hypothesis restricts to names whose segments are all
non-empty: on an empty segment the Go original panics (`p[0:1]` on an
empty string), which the total embedding does not model. -/
theorem camelCase_follows_segments (s : String)
    (_h : ∀ p ∈ goSplit s "_", p ≠ "") :
    camelCase s = camelCaseSpec s :=
  congrArg (fun l => goJoin l "") (enum_map_capSeg (goSplit s "_"))

/-- Witness for C8's theorem at the wire name `foo_bar_id`. -/
theorem camelCase_follows_segments_witness :
    (∀ p ∈ goSplit "foo_bar_id" "_", p ≠ "")
    ∧ camelCase "foo_bar_id" = camelCaseSpec "foo_bar_id" :=
  ⟨by decide, camelCase_follows_segments "foo_bar_id" (by decide)⟩

/-! ### C9 -/

/-- C9: for a file at `a/b/file.proto` depending on `a/c/dep.proto`, the
shared leading component `a` is trimmed, one `..` is prefixed for the one
unmatched component `b` of the source directory, and the resulting import
is `../c/dep.pb.dart` — `..` then the untrimmed dependency directory then
the dependency's binding file name. -/
theorem applyImports_relative_path :
    dartFilename "a/c/dep.proto" = "dep.pb.dart"
    ∧ dependencyImport "a/b/file.proto" "a/c/dep.proto"
        = some { Path := "../c/dep.pb.dart" }
    ∧ applyImports [] fdD9
        = [{ Path := "dart:convert" }, { Path := "a/b/file.pb.dart" },
           { Path := "../c/dep.pb.dart" }] := by
  exact ⟨by decide, by decide, by decide⟩

/-! ### C10 -/

/-- C10: for a file declaring at least one service the import list starts
with the transport/async-support imports (`dart:async` and the HTTP
transport package — present only in that case), then the encoding-support
entry `dart:convert`, then the file's own companion binding entry (the
schema file name with the `.proto` extension stripped plus the `.pb.dart`
binding suffix), followed by the per-dependency imports. -/
theorem applyImports_order (d : FileDescriptorProto) :
    (∀ services : List Service, services ≠ [] →
      applyImports services d
        = { Path := "dart:async" } :: { Path := "package:http/http.dart" }
          :: { Path := "dart:convert" }
          :: { Path := goReplaceAll d.name ".proto" "" ++ ".pb.dart" }
          :: d.dependency.filterMap (dependencyImport d.name))
    ∧ applyImports [] d
        = { Path := "dart:convert" }
          :: { Path := goReplaceAll d.name ".proto" "" ++ ".pb.dart" }
          :: d.dependency.filterMap (dependencyImport d.name) := by
  constructor
  · intro services h
    have hlen : services.length > 0 := List.length_pos.mpr h
    unfold applyImports
    rw [if_pos hlen]
    rfl
  · rfl

/-- Witness for C10's theorem at the concrete schema `fdD9` with one
service. -/
theorem applyImports_order_witness :
    ([svcW] ≠ ([] : List Service))
    ∧ applyImports [svcW] fdD9
      = { Path := "dart:async" } :: { Path := "package:http/http.dart" }
        :: { Path := "dart:convert" }
        :: { Path := goReplaceAll fdD9.name ".proto" "" ++ ".pb.dart" }
        :: fdD9.dependency.filterMap (dependencyImport fdD9.name) :=
  ⟨by decide, (applyImports_order fdD9).1 [svcW] (by decide)⟩
